import Mathlib

/-!
# Verification of the Bonparte Café backend file-store API

Shallow embedding of `src/backend/server.js` (Express handlers over four
JSON documents on disk) and proofs of the specification's claims about it.

Modelling conventions:
* JSON values are the inductive `Cafe.Json`; JavaScript numbers are modelled
  as rationals (`ℚ`), which is exact for every literal appearing in the
  claims and never changes a truthiness or strict-equality outcome relevant
  to them.
* The disk is an association list from filenames to the JSON value stored in
  the file.  `fs.writeFile(path, JSON.stringify(d, null, 2))` followed by
  `JSON.parse(fs.readFile(path))` is the identity on JSON values, so
  serialization is abstracted away: writing stores the value, reading looks
  it up.  A missing file is a `none` lookup (ENOENT); other I/O failures are
  outside the model.
* Each handler returns the HTTP response it sends, the disk state after the
  request, and the trace of filesystem operations it performed, so that
  "performs no filesystem read or write" is directly statable.
* JavaScript property access on `null` throws `TypeError`; inside the
  `findIndex` callbacks of the PUT/DELETE handlers this is modelled
  explicitly (`findIndexById` returns `Except`), because there the thrown
  error changes the HTTP status (caught by the generic handler → 500).
  Inside `validateData` a `null` array element is likewise rejected (the
  document is never accepted), which is all that acceptance claims use.
-/

namespace Cafe

/-- A JSON value, as produced by `JSON.parse` / `express.json()`. -/
inductive Json where
  | null : Json
  | bool : Bool → Json
  | num : ℚ → Json
  | str : String → Json
  | arr : List Json → Json
  | obj : List (String × Json) → Json
deriving Repr

namespace Json

/-- JavaScript truthiness of a JSON value (`!x` in the handlers).
`null`, `false`, `0` and `""` are falsy; arrays and objects are truthy. -/
def truthy : Json → Bool
  | .null => false
  | .bool b => b
  | .num q => q != 0
  | .str s => s != ""
  | .arr _ => true
  | .obj _ => true

/-- Truthiness of a possibly-undefined value (`undefined` is falsy). -/
def truthyO : Option Json → Bool
  | none => false
  | some j => j.truthy

/-- `Array.isArray`. -/
def isArray : Json → Bool
  | .arr _ => true
  | _ => false

def isObj : Json → Bool
  | .obj _ => true
  | _ => false

def isNull : Json → Bool
  | .null => true
  | _ => false

/-- First-match association lookup on an object's field list. -/
def lookupKey : List (String × Json) → String → Option Json
  | [], _ => none
  | (k, v) :: rest, key => if k = key then some v else lookupKey rest key

/-- JavaScript property read `j[k]`: `none` is `undefined`.  Property access
on `null` throws in JavaScript; callers that can receive `null` model the
throw themselves (see `findIndexById`). -/
def get : Json → String → Option Json
  | .obj fields, k => lookupKey fields k
  | _, _ => none

/-- Keys of an object's field list. -/
def keys (fields : List (String × Json)) : List String :=
  fields.map Prod.fst

/-- Set key `k` to `v` in an object's field list: overwrite in place if the
key exists (JavaScript keeps the key's position), append otherwise. -/
def setField : List (String × Json) → String → Json → List (String × Json)
  | [], k, v => [(k, v)]
  | (k0, v0) :: rest, k, v =>
    if k0 = k then (k, v) :: rest else (k0, v0) :: setField rest k v

/-- The own enumerable fields contributed by spreading a value into an
object literal (`{...v}`): objects give their fields, arrays and strings
give index-keyed entries, primitives give nothing. -/
def spreadFields : Option Json → List (String × Json)
  | some (.obj fields) => fields
  | some (.arr xs) => (List.range xs.length).zip xs |>.map fun p => (toString p.1, p.2)
  | some (.str s) =>
      (List.range s.length).zip s.data |>.map fun p => (toString p.1, .str p.2.toString)
  | _ => []

/-- `{...a, ...b}` for field lists: keys of `a` keep their position, with
`b`'s value (last occurrence wins, as for duplicate literal keys) when `b`
has the key; keys of `b` absent from `a` are appended in order. -/
def mergeFields (a b : List (String × Json)) : List (String × Json) :=
  (a.map fun kv => (kv.1, (lookupKey b.reverse kv.1).getD kv.2))
    ++ b.filter fun kv => decide (kv.1 ∉ keys a)

/-- Replace the value of key `k` in an object; other values unchanged. -/
def setKey : Json → String → Json → Json
  | .obj fields, k, v => .obj (setField fields k v)
  | j, _, _ => j

end Json

/-! ## parseInt -/

/-- Digits admitted by `parseInt` for the given radix (10, or 16 after an
`0x` prefix). -/
def isRadixDigit (base : Nat) (c : Char) : Bool :=
  if base = 16 then
    c.isDigit || ('a' ≤ c && c ≤ 'f') || ('A' ≤ c && c ≤ 'F')
  else c.isDigit

def hexDigitVal (c : Char) : Nat :=
  if c.isDigit then c.toNat - '0'.toNat
  else if 'a' ≤ c then c.toNat - 'a'.toNat + 10
  else c.toNat - 'A'.toNat + 10

def digitsVal (base : Nat) (ds : List Char) : Nat :=
  ds.foldl (fun n c => n * base + hexDigitVal c) 0

/-- JavaScript `parseInt(s)` (radix unspecified): skip leading whitespace,
optional sign, optional `0x`/`0X` hex prefix, then the longest prefix of
radix digits; `none` models `NaN` (no digits consumed). -/
def parseIntJS (s : String) : Option Int :=
  let cs := s.data.dropWhile Char.isWhitespace
  let sign : Int := if cs.head? = some '-' then -1 else 1
  let cs := if cs.head? = some '-' ∨ cs.head? = some '+' then cs.tail else cs
  let base : Nat := if cs.take 2 = ['0', 'x'] ∨ cs.take 2 = ['0', 'X'] then 16 else 10
  let cs := if base = 16 then cs.drop 2 else cs
  let ds := cs.takeWhile (isRadixDigit base)
  if ds.isEmpty then none else some (sign * (digitsVal base ds : Nat))

/-! ## Filename validation -/

/-- Characters of the class `[a-zA-Z0-9_-]`. -/
def filenameChar (c : Char) : Bool :=
  c.isAlphanum || c = '_' || c = '-'

/-- The five characters of the literal suffix `.json`. -/
def jsonSuffix : List Char := ['.', 'j', 's', 'o', 'n']

/-- `filename.match(/^[a-zA-Z0-9_-]+\.json$/)` succeeds: a non-empty stem of
allowed characters followed by the literal `.json`. -/
def filenameOk (s : String) : Bool :=
  let cs := s.data
  decide (6 ≤ cs.length) &&
    decide (cs.drop (cs.length - 5) = jsonSuffix) &&
    (cs.take (cs.length - 5)).all filenameChar

/-! ## The disk and the filesystem-operation trace -/

/-- One filesystem access performed by a handler. -/
inductive FsOp where
  | read : String → FsOp
  | write : String → FsOp
deriving Repr, DecidableEq

/-- The data directory: filename → JSON value stored in the file. -/
abbrev Store := List (String × Json)

/-- `fs.readFile` + `JSON.parse`; `none` is ENOENT. -/
def readFile : Store → String → Option Json
  | [], _ => none
  | (g, d) :: rest, f => if g = f then some d else readFile rest f

/-- `fs.writeFile(f, JSON.stringify(d, null, 2))`: full-file overwrite.
The store is a map, so the overwrite is modelled by binding `f` and
dropping any previous binding. -/
def writeFile (st : Store) (f : String) (d : Json) : Store :=
  (f, d) :: st.filter fun kv => decide (kv.1 ≠ f)

/-! ## Responses -/

/-- The parts of a handler's JSON response the claims talk about: HTTP
status, the `success` flag, the `error` string, and the `data`-bearing
payload (`data`, `item` or `deletedItem` in the source). -/
structure Resp where
  status : Nat
  success : Bool
  error : Option String
  data : Option Json
deriving Repr

def respOk (d : Option Json) : Resp := ⟨200, true, none, d⟩

def respErr (code : Nat) (msg : String) : Resp := ⟨code, false, some msg, none⟩

/-- A handler run: the response sent, the disk afterwards, and the trace of
filesystem operations attempted. -/
structure HandlerOut where
  resp : Resp
  store : Store
  ops : List FsOp
deriving Repr

/-! ## validateData (server.js lines 298-356) -/

/-- The property is present and is an array
(`!data.k || !Array.isArray(data.k)` fails exactly otherwise; arrays are
always truthy, and the two failure branches share one message). -/
def isArrayProp (o : Option Json) : Bool :=
  match o with
  | some (.arr _) => true
  | _ => false

/-- The elements of an array-valued property (only used under
`isArrayProp`). -/
def itemsOf (o : Option Json) : List Json :=
  match o with
  | some (.arr xs) => xs
  | _ => []

/-- The per-item check of `validateData`'s loops: every required field is
truthy (`!item.f` for each `f` in turn). -/
def requiredOk (fields : List String) (item : Json) : Bool :=
  fields.all fun k => Json.truthyO (item.get k)

def menuItemFields : List String :=
  ["id", "name", "category", "price", "description", "image"]

def specialFields : List String :=
  ["id", "day", "name", "items", "price", "discount", "description"]

def eventFields : List String :=
  ["id", "name", "date", "description", "image", "tag"]

/-- `validateData(filename, data)`: `none` = validation passed, `some msg` =
the 400 error message returned. Unknown filenames are not validated. -/
def validateData (filename : String) (data : Json) : Option String :=
  if filename = "menu.json" then
    if ¬ isArrayProp (data.get "categories") then
      some "Menu data must have a categories array"
    else if ¬ isArrayProp (data.get "items") then
      some "Menu data must have an items array"
    else if ¬ (itemsOf (data.get "items")).all (requiredOk menuItemFields) then
      some "Each menu item must have id, name, category, price, description, and image"
    else none
  else if filename = "specials.json" then
    if ¬ isArrayProp (data.get "specials") then
      some "Specials data must have a specials array"
    else if ¬ (itemsOf (data.get "specials")).all (requiredOk specialFields) then
      some "Each special must have id, day, name, items, price, discount, and description"
    else none
  else if filename = "events.json" then
    if ¬ isArrayProp (data.get "events") then
      some "Events data must have an events array"
    else if ¬ (itemsOf (data.get "events")).all (requiredOk eventFields) then
      some "Each event must have id, name, date, description, image, and tag"
    else none
  else if filename = "contact.json" then
    if ¬ (["address", "phone", "email", "workingHours", "socialMedia"].all
        fun k => Json.truthyO (data.get k)) then
      some "Contact data must have address, phone, email, workingHours, and socialMedia"
    else if ¬ (["weekdays", "weekends"].all
        fun k => Json.truthyO ((data.get "workingHours").bind (·.get k))) then
      some "Contact data must have weekdays and weekends in workingHours"
    else if ¬ (["facebook", "instagram", "twitter", "tripadvisor"].all
        fun k => Json.truthyO ((data.get "socialMedia").bind (·.get k))) then
      some "Contact data must have all social media links"
    else none
  else none

/-! ## Item lookup by id (the findIndex callbacks) -/

/-- `item.id === id` where `id = parseInt(req.params.id)`; `idv = none` is
`NaN`, which is strictly equal to nothing, and a missing or non-numeric
`item.id` is strictly equal to no number. -/
def idEq (item : Json) (idv : Option Int) : Bool :=
  match item.get "id", idv with
  | some (.num q), some n => q == (n : ℚ)
  | _, _ => false

/-- `items.findIndex(item => item.id === id)`.  Property access on a `null`
element throws `TypeError` (`.error`), which the handlers' generic `catch`
turns into a 500. -/
def findIndexById : List Json → Option Int → Except Unit (Option Nat)
  | [], _ => .ok none
  | item :: rest, idv =>
    if item.isNull then .error ()
    else if idEq item idv then .ok (some 0)
    else (findIndexById rest idv).map (Option.map (· + 1))

/-- The item array's key per file type (`menu.json` → `items`, etc.);
`none` for file types that cannot be item-updated or item-deleted. -/
def itemsKeyOf (filename : String) : Option String :=
  if filename = "menu.json" then some "items"
  else if filename = "specials.json" then some "specials"
  else if filename = "events.json" then some "events"
  else none

/-! ## Handlers -/

/-- `GET /api/data` (server.js lines 26-50): read the four fixed files, each
failed read (including a missing file) becoming `null`; always 200. -/
def getAllData (st : Store) : HandlerOut :=
  let files := ["menu", "specials", "events", "contact"]
  ⟨respOk (some (.obj (files.map fun f =>
      (f, (readFile st (f ++ ".json")).getD .null)))),
   st,
   files.map fun f => .read (f ++ ".json")⟩

/-- `GET /api/data/:filename` (lines 53-83): filename check, then read;
ENOENT → 404, success → 200 with the parsed document. -/
def getDataFile (st : Store) (filename : String) : HandlerOut :=
  if ¬ filenameOk filename then
    ⟨respErr 400 "Invalid filename", st, []⟩
  else
    match readFile st filename with
    | none => ⟨respErr 404 "File not found", st, [.read filename]⟩
    | some d => ⟨respOk (some d), st, [.read filename]⟩

/-- `POST /api/data/:filename` (lines 86-133): filename check, falsy-body
check, `validateData`, then a full-file overwrite; `body = none` models an
absent `req.body`. -/
def postDataFile (st : Store) (filename : String) (body : Option Json) :
    HandlerOut :=
  if ¬ filenameOk filename then
    ⟨respErr 400 "Invalid filename", st, []⟩
  else if ¬ Json.truthyO body then
    ⟨respErr 400 "No data provided", st, []⟩
  else
    let d := body.getD .null
    match validateData filename d with
    | some msg => ⟨respErr 400 msg, st, []⟩
    | none => ⟨respOk none, writeFile st filename d, [.write filename]⟩

/-- `PUT /api/data/:filename/:id` (lines 136-195): filename check, read
(ENOENT reaches the generic catch → 500), file-type branch, `findIndex` by
id, then shallow merge `{...items[i], ...req.body}` and write back.  A
document whose item key is not an array makes `items.findIndex` throw →
500 via the generic catch, as does a `null` array element. -/
def putDataItem (st : Store) (filename : String) (idStr : String)
    (body : Option Json) : HandlerOut :=
  let idv := parseIntJS idStr
  if ¬ filenameOk filename then
    ⟨respErr 400 "Invalid filename", st, []⟩
  else
    match readFile st filename with
    | none => ⟨respErr 500 "Failed to update item", st, [.read filename]⟩
    | some data =>
      match itemsKeyOf filename with
      | none => ⟨respErr 400 "Cannot update this file type", st, [.read filename]⟩
      | some key =>
        match data.get key with
        | some (.arr items) =>
          (match findIndexById items idv with
           | .error _ => ⟨respErr 500 "Failed to update item", st, [.read filename]⟩
           | .ok none => ⟨respErr 404 "Item not found", st, [.read filename]⟩
           | .ok (some i) =>
             let merged := Json.obj (Json.mergeFields
               (Json.spreadFields (items.get? i)) (Json.spreadFields body))
             let newData := data.setKey key (.arr (items.set i merged))
             ⟨respOk (some merged), writeFile st filename newData,
              [.read filename, .write filename]⟩)
        | _ => ⟨respErr 500 "Failed to update item", st, [.read filename]⟩

/-- `DELETE /api/data/:filename/:id` (lines 198-262): like PUT but
`splice`s the found item out and reports it as `deletedItem`. -/
def deleteDataItem (st : Store) (filename : String) (idStr : String) :
    HandlerOut :=
  let idv := parseIntJS idStr
  if ¬ filenameOk filename then
    ⟨respErr 400 "Invalid filename", st, []⟩
  else
    match readFile st filename with
    | none => ⟨respErr 500 "Failed to delete item", st, [.read filename]⟩
    | some data =>
      match itemsKeyOf filename with
      | none => ⟨respErr 400 "Cannot delete from this file type", st, [.read filename]⟩
      | some key =>
        match data.get key with
        | some (.arr items) =>
          (match findIndexById items idv with
           | .error _ => ⟨respErr 500 "Failed to delete item", st, [.read filename]⟩
           | .ok none => ⟨respErr 404 "Item not found", st, [.read filename]⟩
           | .ok (some i) =>
             let deletedItem := (items.get? i).getD .null
             let newData := data.setKey key (.arr (items.eraseIdx i))
             ⟨respOk (some deletedItem), writeFile st filename newData,
              [.read filename, .write filename]⟩)
        | _ => ⟨respErr 500 "Failed to delete item", st, [.read filename]⟩

/-! ## Spec-side predicates (for claim C2)

These follow the spec's § 3 invariant wording, not the code: "item arrays
contain unique, non-null integer ids; every required field per validated
schema is present and non-empty; price fields are positive numbers". -/

/-- The numeric id of an item, when it has one. -/
def specIdOf (item : Json) : Option ℚ :=
  match item.get "id" with
  | some (.num q) => some q
  | _ => none

/-- Spec § 3: the menu item array contains unique, non-null integer ids. -/
def specMenuIdsOk (d : Json) : Bool :=
  ((itemsOf (d.get "items")).map specIdOf).all
      (fun o => match o with | some q => q.isInt | none => false)
    && decide ((itemsOf (d.get "items")).map specIdOf).Nodup

/-- Spec § 3: every menu price field is a positive number. -/
def specMenuPricesPositive (d : Json) : Bool :=
  (itemsOf (d.get "items")).all fun item =>
    match item.get "price" with
    | some (.num q) => decide (0 < q)
    | _ => false

/-- The shape the menu validation actually enforces, stated spec-side:
`categories` and `items` arrays exist and every item has all six required
fields truthy. -/
def specMenuShape (d : Json) : Prop :=
  (∃ cats, d.get "categories" = some (.arr cats)) ∧
  ∃ its, d.get "items" = some (.arr its) ∧
    ∀ item ∈ its,
      Json.truthyO (item.get "id") = true ∧
      Json.truthyO (item.get "name") = true ∧
      Json.truthyO (item.get "category") = true ∧
      Json.truthyO (item.get "price") = true ∧
      Json.truthyO (item.get "description") = true ∧
      Json.truthyO (item.get "image") = true

/-- The shape the specials validation actually enforces. -/
def specSpecialsShape (d : Json) : Prop :=
  ∃ sp, d.get "specials" = some (.arr sp) ∧
    ∀ s ∈ sp,
      Json.truthyO (s.get "id") = true ∧
      Json.truthyO (s.get "day") = true ∧
      Json.truthyO (s.get "name") = true ∧
      Json.truthyO (s.get "items") = true ∧
      Json.truthyO (s.get "price") = true ∧
      Json.truthyO (s.get "discount") = true ∧
      Json.truthyO (s.get "description") = true

/-- The shape the events validation actually enforces. -/
def specEventsShape (d : Json) : Prop :=
  ∃ ev, d.get "events" = some (.arr ev) ∧
    ∀ e ∈ ev,
      Json.truthyO (e.get "id") = true ∧
      Json.truthyO (e.get "name") = true ∧
      Json.truthyO (e.get "date") = true ∧
      Json.truthyO (e.get "description") = true ∧
      Json.truthyO (e.get "image") = true ∧
      Json.truthyO (e.get "tag") = true

/-! ## Witness fixtures: the seed documents of spec §8 -/

/-- The spec's §8 seed menu document (integer price so every field is a
directly evaluable literal). -/
def seedMenuDoc : Json := .obj [("categories", .arr [.str "Coffee"]),
  ("items", .arr [.obj [("id", .num 1), ("name", .str "Latte"),
    ("category", .str "Coffee"), ("price", .num 5),
    ("description", .str "x"), ("image", .str "a.jpg")]])]

def seedSpecialsDoc : Json := .obj [("specials", .arr [.obj [("id", .num 1),
  ("day", .str "Monday"), ("name", .str "Combo"),
  ("items", .str "Latte and croissant"), ("price", .num 7),
  ("discount", .str "10 percent"), ("description", .str "x")]])]

def seedContactDoc : Json := .obj [("address", .str "1 Rue"),
  ("phone", .str "123"), ("email", .str "hi@cafe.example"),
  ("workingHours", .obj [("weekdays", .str "8-18"), ("weekends", .str "9-17")]),
  ("socialMedia", .obj [("facebook", .str "f"), ("instagram", .str "i"),
    ("twitter", .str "t"), ("tripadvisor", .str "ta")])]

def menuItemOne : Json := .obj [("id", .num 1), ("name", .str "Latte"),
  ("category", .str "Coffee"), ("price", .num 5),
  ("description", .str "x"), ("image", .str "a.jpg")]

def menuItemThree : Json := .obj [("id", .num 3), ("name", .str "Mocha"),
  ("category", .str "Coffee"), ("price", .num 6),
  ("description", .str "y"), ("image", .str "b.jpg")]

/-- A menu document with two items, ids 1 and 3. -/
def menuTwoDoc : Json := .obj [("categories", .arr [.str "Coffee"]),
  ("items", .arr [menuItemOne, menuItemThree])]

/-! ## Lemmas: the store -/

theorem readFile_cons (k : String) (v : Json) (rest : Store) (f : String) :
    readFile ((k, v) :: rest) f = if k = f then some v else readFile rest f := rfl

theorem readFile_filter_ne {f g : String} (h : g ≠ f) (st : Store) :
    readFile (st.filter fun kv => decide (kv.1 ≠ f)) g = readFile st g := by
  induction st with
  | nil => rfl
  | cons kv rest ih =>
    obtain ⟨k, v⟩ := kv
    simp only [decide_not] at ih
    by_cases hk : k = f
    · subst hk
      simp [List.filter_cons, readFile_cons, Ne.symm h, ih]
    · simp [List.filter_cons, readFile_cons, hk, ih]

theorem readFile_writeFile_self (st : Store) (f : String) (d : Json) :
    readFile (writeFile st f d) f = some d := by
  simp [writeFile, readFile_cons]

theorem readFile_writeFile_ne {f g : String} (h : g ≠ f) (st : Store) (d : Json) :
    readFile (writeFile st f d) g = readFile st g := by
  simp only [writeFile, readFile_cons, Ne.symm h, if_false]
  exact readFile_filter_ne h st

/-! ## Lemmas: object field lookup, merge and update -/

namespace Json

theorem lookupKey_append_of_some {a : List (String × Json)} {k : String}
    {v : Json} (h : lookupKey a k = some v) (b : List (String × Json)) :
    lookupKey (a ++ b) k = some v := by
  induction a with
  | nil => simp [lookupKey] at h
  | cons kv rest ih =>
    obtain ⟨k0, v0⟩ := kv
    by_cases h0 : k0 = k <;> simp only [lookupKey, h0, if_true, if_false,
      List.cons_append] at h ⊢ <;> simp_all [lookupKey]

theorem lookupKey_append_of_none {a : List (String × Json)} {k : String}
    (h : lookupKey a k = none) (b : List (String × Json)) :
    lookupKey (a ++ b) k = lookupKey b k := by
  induction a with
  | nil => rfl
  | cons kv rest ih =>
    obtain ⟨k0, v0⟩ := kv
    by_cases h0 : k0 = k <;> simp_all [lookupKey]

theorem lookupKey_map_value (a : List (String × Json))
    (g : String → Json → Json) (k : String) :
    lookupKey (a.map fun kv => (kv.1, g kv.1 kv.2)) k
      = (lookupKey a k).map (g k) := by
  induction a with
  | nil => rfl
  | cons kv rest ih =>
    obtain ⟨k0, v0⟩ := kv
    by_cases h0 : k0 = k
    · subst h0; simp [lookupKey]
    · simp [lookupKey, h0, ih]

theorem lookupKey_eq_none_iff (a : List (String × Json)) (k : String) :
    lookupKey a k = none ↔ k ∉ keys a := by
  induction a with
  | nil => simp [lookupKey, keys]
  | cons kv rest ih =>
    obtain ⟨k0, v0⟩ := kv
    by_cases h0 : k0 = k
    · subst h0; simp [lookupKey, keys]
    · simp [lookupKey, keys, h0, ih, Ne.symm h0]

theorem lookupKey_mergeFields_same (a : List (String × Json)) (kb : String)
    (v : Json) : lookupKey (mergeFields a [(kb, v)]) kb = some v := by
  unfold mergeFields
  cases h : lookupKey a kb with
  | some v0 =>
    apply lookupKey_append_of_some
    rw [lookupKey_map_value a (fun k w => (lookupKey [(kb, v)].reverse k).getD w) kb]
    rw [h]
    simp [lookupKey]
  | none =>
    rw [lookupKey_append_of_none]
    · have hmem : kb ∉ keys a := (lookupKey_eq_none_iff a kb).mp h
      simp [List.filter_cons, hmem, lookupKey]
    · rw [lookupKey_map_value a (fun k w => (lookupKey [(kb, v)].reverse k).getD w) kb]
      rw [h]; rfl

theorem lookupKey_mergeFields_other (a : List (String × Json)) (kb : String)
    (v : Json) {k : String} (h : k ≠ kb) :
    lookupKey (mergeFields a [(kb, v)]) k = lookupKey a k := by
  unfold mergeFields
  cases h0 : lookupKey a k with
  | some v0 =>
    apply lookupKey_append_of_some
    rw [lookupKey_map_value a (fun k w => (lookupKey [(kb, v)].reverse k).getD w) k]
    rw [h0]
    simp [lookupKey, Ne.symm h]
  | none =>
    rw [lookupKey_append_of_none]
    · by_cases hmem : kb ∈ keys a <;>
        simp [List.filter_cons, hmem, lookupKey, Ne.symm h]
    · rw [lookupKey_map_value a (fun k w => (lookupKey [(kb, v)].reverse k).getD w) k]
      rw [h0]; rfl

theorem lookupKey_setField_self (fields : List (String × Json)) (k : String)
    (v : Json) : lookupKey (setField fields k v) k = some v := by
  induction fields with
  | nil => simp [setField, lookupKey]
  | cons kv rest ih =>
    obtain ⟨k0, v0⟩ := kv
    by_cases h0 : k0 = k <;> simp [setField, lookupKey, h0, ih]

theorem lookupKey_setField_ne (fields : List (String × Json)) {k k' : String}
    (h : k' ≠ k) (v : Json) :
    lookupKey (setField fields k v) k' = lookupKey fields k' := by
  induction fields with
  | nil => simp [setField, lookupKey, Ne.symm h]
  | cons kv rest ih =>
    obtain ⟨k0, v0⟩ := kv
    by_cases h0 : k0 = k
    · subst h0
      simp [setField, lookupKey, Ne.symm h]
    · by_cases h1 : k0 = k' <;> simp [setField, lookupKey, h0, h1, h, ih]

theorem get_setKey_self {d : Json} (hd : d.isObj = true) (k : String)
    (v : Json) : (d.setKey k v).get k = some v := by
  cases d <;> simp [isObj] at hd ⊢
  exact lookupKey_setField_self _ k v

theorem get_setKey_ne (d : Json) {k k' : String} (h : k' ≠ k) (v : Json) :
    (d.setKey k v).get k' = d.get k' := by
  cases d <;> simp [setKey, get]
  exact lookupKey_setField_ne _ h v

end Json

/-! ## Lemmas: item lookup by id -/

theorem idEq_isObj {item : Json} {idv : Option Int} (h : idEq item idv = true) :
    ∃ fields, item = Json.obj fields := by
  cases item
  case obj fields => exact ⟨fields, rfl⟩
  all_goals cases idv <;> simp [idEq, Json.get] at h

theorem findIndexById_eq_ok_none {items : List Json} {idv : Option Int}
    (hnn : ∀ j ∈ items, j.isNull = false)
    (hno : ∀ j ∈ items, idEq j idv = false) :
    findIndexById items idv = .ok none := by
  induction items with
  | nil => rfl
  | cons item rest ih =>
    have h1 := hnn item (by simp)
    have h2 := hno item (by simp)
    have ih' := ih (fun j hj => hnn j (by simp [hj])) (fun j hj => hno j (by simp [hj]))
    simp [findIndexById, h1, h2, ih', Except.map]

theorem findIndexById_found {items : List Json} {idv : Option Int}
    (hnn : ∀ j ∈ items, j.isNull = false)
    {item : Json} (hmem : item ∈ items) (hid : idEq item idv = true) :
    ∃ i it, findIndexById items idv = .ok (some i) ∧ items.get? i = some it ∧
      idEq it idv = true := by
  induction items with
  | nil => cases hmem
  | cons j rest ih =>
    have h1 := hnn j (by simp)
    by_cases hj : idEq j idv = true
    · exact ⟨0, j, by simp [findIndexById, h1, hj], rfl, hj⟩
    · have hmem' : item ∈ rest := by
        cases hmem with
        | head => exact absurd hid hj
        | tail _ hmem' => exact hmem'
      obtain ⟨i, it, hfind, hget, hidq⟩ :=
        ih (fun x hx => hnn x (by simp [hx])) hmem'
      refine ⟨i + 1, it, ?_, ?_, hidq⟩
      · simp [findIndexById, h1, hj, hfind, Except.map]
      · simpa using hget

/-! ## Lemmas: validateData -/

theorem validateData_menu_eq_none_iff (d : Json) :
    validateData "menu.json" d = none ↔
      isArrayProp (d.get "categories") = true ∧
      isArrayProp (d.get "items") = true ∧
      (itemsOf (d.get "items")).all (requiredOk menuItemFields) = true := by
  simp only [validateData, if_pos rfl]
  split_ifs with h1 h2 h3 <;> simp_all

theorem validMenu_truthy {d : Json} (h : validateData "menu.json" d = none) :
    Json.truthyO (some d) = true := by
  rw [validateData_menu_eq_none_iff] at h
  obtain ⟨h1, -, -⟩ := h
  cases d
  case obj fields => simp [Json.truthyO, Json.truthy]
  all_goals simp [Json.get, isArrayProp] at h1

theorem isArrayProp_iff (o : Option Json) :
    isArrayProp o = true ↔ ∃ xs, o = some (.arr xs) := by
  cases o with
  | none => simp [isArrayProp]
  | some j => cases j <;> simp [isArrayProp]

theorem get_some_truthy {d : Json} {k : String} {v : Json}
    (h : d.get k = some v) : Json.truthy d = true := by
  cases d
  case obj fields => rfl
  all_goals simp [Json.get] at h

theorem validateData_specials_eq_none_iff (d : Json) :
    validateData "specials.json" d = none ↔
      isArrayProp (d.get "specials") = true ∧
      (itemsOf (d.get "specials")).all (requiredOk specialFields) = true := by
  simp only [validateData]
  split_ifs with h1 h2 h3 <;> simp_all

theorem validateData_events_eq_none_iff (d : Json) :
    validateData "events.json" d = none ↔
      isArrayProp (d.get "events") = true ∧
      (itemsOf (d.get "events")).all (requiredOk eventFields) = true := by
  simp only [validateData]
  split_ifs with h1 h2 h3 <;> simp_all

/-- What the POST handler's success means for any valid filename: a truthy
body that `validateData` accepts. -/
theorem postDataFile_success_iff (st : Store) (f : String)
    (hf : filenameOk f = true) (d : Json) :
    (postDataFile st f (some d)).resp.success = true ↔
      Json.truthy d = true ∧ validateData f d = none := by
  constructor
  · intro h
    by_cases ht : Json.truthy d = true
    · cases hv : validateData f d with
      | some msg => simp [postDataFile, hf, Json.truthyO, ht, hv, respErr] at h
      | none => exact ⟨ht, rfl⟩
    · have ht' : Json.truthy d = false := by
        revert ht; cases Json.truthy d <;> simp
      simp [postDataFile, hf, Json.truthyO, ht', respErr] at h
  · rintro ⟨ht, hv⟩
    simp [postDataFile, hf, Json.truthyO, ht, hv, respOk]

theorem validateData_menu_none_iff_shape (d : Json) :
    validateData "menu.json" d = none ↔ specMenuShape d := by
  rw [validateData_menu_eq_none_iff]
  unfold specMenuShape
  constructor
  · rintro ⟨h1, h2, h3⟩
    obtain ⟨cats, hc⟩ := (isArrayProp_iff _).mp h1
    obtain ⟨its, hi⟩ := (isArrayProp_iff _).mp h2
    rw [hi] at h3
    refine ⟨⟨cats, hc⟩, its, hi, fun item hmemb => ?_⟩
    have h4 := List.all_eq_true.mp h3 item hmemb
    simpa [requiredOk, menuItemFields, and_assoc] using h4
  · rintro ⟨⟨cats, hc⟩, its, hi, hall⟩
    refine ⟨(isArrayProp_iff _).mpr ⟨cats, hc⟩,
      (isArrayProp_iff _).mpr ⟨its, hi⟩, ?_⟩
    rw [hi, show itemsOf (some (.arr its)) = its from rfl, List.all_eq_true]
    intro item hmemb
    simpa [requiredOk, menuItemFields, and_assoc] using hall item hmemb

theorem validateData_specials_none_iff_shape (d : Json) :
    validateData "specials.json" d = none ↔ specSpecialsShape d := by
  rw [validateData_specials_eq_none_iff]
  unfold specSpecialsShape
  constructor
  · rintro ⟨h1, h2⟩
    obtain ⟨sp, hs⟩ := (isArrayProp_iff _).mp h1
    rw [hs] at h2
    refine ⟨sp, hs, fun s hmemb => ?_⟩
    have h4 := List.all_eq_true.mp h2 s hmemb
    simpa [requiredOk, specialFields, and_assoc] using h4
  · rintro ⟨sp, hs, hall⟩
    refine ⟨(isArrayProp_iff _).mpr ⟨sp, hs⟩, ?_⟩
    rw [hs, show itemsOf (some (.arr sp)) = sp from rfl, List.all_eq_true]
    intro s hmemb
    simpa [requiredOk, specialFields, and_assoc] using hall s hmemb

theorem validateData_events_none_iff_shape (d : Json) :
    validateData "events.json" d = none ↔ specEventsShape d := by
  rw [validateData_events_eq_none_iff]
  unfold specEventsShape
  constructor
  · rintro ⟨h1, h2⟩
    obtain ⟨ev, he⟩ := (isArrayProp_iff _).mp h1
    rw [he] at h2
    refine ⟨ev, he, fun e hmemb => ?_⟩
    have h4 := List.all_eq_true.mp h2 e hmemb
    simpa [requiredOk, eventFields, and_assoc] using h4
  · rintro ⟨ev, he, hall⟩
    refine ⟨(isArrayProp_iff _).mpr ⟨ev, he⟩, ?_⟩
    rw [he, show itemsOf (some (.arr ev)) = ev from rfl, List.all_eq_true]
    intro e hmemb
    simpa [requiredOk, eventFields, and_assoc] using hall e hmemb

theorem itemsKeyOf_filenameOk {f k : String} (h : itemsKeyOf f = some k) :
    filenameOk f = true := by
  unfold itemsKeyOf at h
  split_ifs at h with h1 h2 h3
  · subst h1; decide
  · subst h2; decide
  · subst h3; decide

/-! ## Claims -/

/-- **C1.** For every schema-valid menu document `d`, POST
`/api/data/menu.json` with body `d` succeeds, persists exactly `d` as the
file's content, and a subsequent GET `/api/data/menu.json` returns a
document equal to `d` (write/read round-trip). -/
theorem c1_menu_post_roundtrip (st : Store) (d : Json)
    (hv : validateData "menu.json" d = none) :
    postDataFile st "menu.json" (some d)
      = ⟨respOk none, writeFile st "menu.json" d, [.write "menu.json"]⟩ ∧
    readFile (writeFile st "menu.json" d) "menu.json" = some d ∧
    getDataFile (writeFile st "menu.json" d) "menu.json"
      = ⟨respOk (some d), writeFile st "menu.json" d, [.read "menu.json"]⟩ := by
  have ht := validMenu_truthy hv
  have hfm : filenameOk "menu.json" = true := by decide
  have hw := readFile_writeFile_self st "menu.json" d
  refine ⟨?_, hw, ?_⟩
  · simp [postDataFile, hfm, ht, hv]
  · simp [getDataFile, hfm, hw]

/-- Witness for C1 at the spec's seed menu document. -/
theorem c1_menu_post_roundtrip_witness :
    validateData "menu.json" seedMenuDoc = none ∧
    (postDataFile [] "menu.json" (some seedMenuDoc)
      = ⟨respOk none, writeFile [] "menu.json" seedMenuDoc, [.write "menu.json"]⟩ ∧
     readFile (writeFile [] "menu.json" seedMenuDoc) "menu.json" = some seedMenuDoc ∧
     getDataFile (writeFile [] "menu.json" seedMenuDoc) "menu.json"
      = ⟨respOk (some seedMenuDoc), writeFile [] "menu.json" seedMenuDoc,
         [.read "menu.json"]⟩) :=
  ⟨rfl, c1_menu_post_roundtrip [] seedMenuDoc rfl⟩

/-- **C6.** For every filename not matching `[a-zA-Z0-9_-]+\.json`, each of
the four per-file data endpoints returns 400 with `success:false` and
performs no filesystem read or write. -/
theorem c6_invalid_filename_rejected (f : String) (hf : filenameOk f = false)
    (st : Store) (body : Option Json) (idStr : String) :
    getDataFile st f = ⟨respErr 400 "Invalid filename", st, []⟩ ∧
    postDataFile st f body = ⟨respErr 400 "Invalid filename", st, []⟩ ∧
    putDataItem st f idStr body = ⟨respErr 400 "Invalid filename", st, []⟩ ∧
    deleteDataItem st f idStr = ⟨respErr 400 "Invalid filename", st, []⟩ := by
  refine ⟨?_, ?_, ?_, ?_⟩ <;>
    simp [getDataFile, postDataFile, putDataItem, deleteDataItem, hf]

/-- Witness for C6 at the traversal-shaped filename `../menu.json`. -/
theorem c6_invalid_filename_rejected_witness :
    filenameOk "../menu.json" = false ∧
    (getDataFile [] "../menu.json" = ⟨respErr 400 "Invalid filename", [], []⟩ ∧
     postDataFile [] "../menu.json" (some seedMenuDoc)
       = ⟨respErr 400 "Invalid filename", [], []⟩ ∧
     putDataItem [] "../menu.json" "1" (some seedMenuDoc)
       = ⟨respErr 400 "Invalid filename", [], []⟩ ∧
     deleteDataItem [] "../menu.json" "1"
       = ⟨respErr 400 "Invalid filename", [], []⟩) :=
  ⟨by decide, c6_invalid_filename_rejected "../menu.json" (by decide) []
    (some seedMenuDoc) "1"⟩

/-- **C7.** When `events.json` is absent and the other three data files are
readable, `GET /api/data` still returns 200 `success:true` with the
`events` key bound to `null` and the other three keys bound to the files'
contents. -/
theorem c7_get_all_missing_events (st : Store) (m s c : Json)
    (hm : readFile st "menu.json" = some m)
    (hs : readFile st "specials.json" = some s)
    (he : readFile st "events.json" = none)
    (hc : readFile st "contact.json" = some c) :
    getAllData st = ⟨respOk (some (.obj
      [("menu", m), ("specials", s), ("events", .null), ("contact", c)])),
      st,
      [.read "menu.json", .read "specials.json", .read "events.json",
       .read "contact.json"]⟩ := by
  simp [getAllData, hm, hs, he, hc]

/-- Witness for C7 on a store holding the three seed documents. -/
theorem c7_get_all_missing_events_witness :
    readFile [("menu.json", seedMenuDoc), ("specials.json", seedSpecialsDoc),
      ("contact.json", seedContactDoc)] "menu.json" = some seedMenuDoc ∧
    readFile [("menu.json", seedMenuDoc), ("specials.json", seedSpecialsDoc),
      ("contact.json", seedContactDoc)] "specials.json" = some seedSpecialsDoc ∧
    readFile [("menu.json", seedMenuDoc), ("specials.json", seedSpecialsDoc),
      ("contact.json", seedContactDoc)] "events.json" = none ∧
    readFile [("menu.json", seedMenuDoc), ("specials.json", seedSpecialsDoc),
      ("contact.json", seedContactDoc)] "contact.json" = some seedContactDoc ∧
    getAllData [("menu.json", seedMenuDoc), ("specials.json", seedSpecialsDoc),
      ("contact.json", seedContactDoc)] = ⟨respOk (some (.obj
      [("menu", seedMenuDoc), ("specials", seedSpecialsDoc),
       ("events", .null), ("contact", seedContactDoc)])),
      [("menu.json", seedMenuDoc), ("specials.json", seedSpecialsDoc),
       ("contact.json", seedContactDoc)],
      [.read "menu.json", .read "specials.json", .read "events.json",
       .read "contact.json"]⟩ :=
  ⟨rfl, rfl, rfl, rfl,
   c7_get_all_missing_events _ seedMenuDoc seedSpecialsDoc seedContactDoc
     rfl rfl rfl rfl⟩

/-- **C8.** A POST to a valid filename with no request body is rejected
with 400 ("No data provided") and nothing is written; this holds for every
filename matching the pattern, including ones outside the four recognized
document types. -/
theorem c8_post_missing_body (f : String) (hf : filenameOk f = true)
    (st : Store) :
    postDataFile st f none = ⟨respErr 400 "No data provided", st, []⟩ := by
  simp [postDataFile, hf, Json.truthyO]

/-- Witness for C8 at a filename outside the four document types. -/
theorem c8_post_missing_body_witness :
    filenameOk "notes.json" = true ∧
    postDataFile [] "notes.json" none
      = ⟨respErr 400 "No data provided", [], []⟩ :=
  ⟨by decide, c8_post_missing_body "notes.json" (by decide) []⟩

/-- **C5.** On each item document (menu, specials, events): DELETE with an
id matching no item returns 404 and leaves the store untouched; DELETE with
a present id succeeds, removes exactly the (first) item with that id, and
the remaining items keep their relative order (`eraseIdx`). -/
theorem c5_delete_semantics (st : Store) (f key idStr : String) (d : Json)
    (hkey : itemsKeyOf f = some key)
    (hread : readFile st f = some d)
    (items : List Json) (hitems : d.get key = some (.arr items))
    (hnn : ∀ j ∈ items, j.isNull = false) :
    ((∀ j ∈ items, idEq j (parseIntJS idStr) = false) →
      deleteDataItem st f idStr
        = ⟨respErr 404 "Item not found", st, [.read f]⟩) ∧
    (∀ item ∈ items, idEq item (parseIntJS idStr) = true →
      ∃ i it, items.get? i = some it ∧ idEq it (parseIntJS idStr) = true ∧
        deleteDataItem st f idStr
          = ⟨respOk (some it),
             writeFile st f (d.setKey key (.arr (items.eraseIdx i))),
             [.read f, .write f]⟩) := by
  have hfok := itemsKeyOf_filenameOk hkey
  constructor
  · intro hno
    have hfind := findIndexById_eq_ok_none hnn hno
    simp [deleteDataItem, hfok, hread, hkey, hitems, hfind]
  · intro item hmem hid
    obtain ⟨i, it, hfind, hget, hidq⟩ := findIndexById_found hnn hmem hid
    refine ⟨i, it, hget, hidq, ?_⟩
    have hget' : items[i]? = some it := by simpa using hget
    simp [deleteDataItem, hfok, hread, hkey, hitems, hfind, hget']

/-- Witness for C5: deleting id 9 (absent) 404s and changes nothing;
deleting id 3 (present) removes exactly that item. -/
theorem c5_delete_semantics_witness :
    (itemsKeyOf "menu.json" = some "items" ∧
     readFile [("menu.json", menuTwoDoc)] "menu.json" = some menuTwoDoc ∧
     menuTwoDoc.get "items" = some (.arr [menuItemOne, menuItemThree]) ∧
     (∀ j ∈ [menuItemOne, menuItemThree], j.isNull = false)) ∧
    ((∀ j ∈ [menuItemOne, menuItemThree], idEq j (parseIntJS "9") = false) →
      deleteDataItem [("menu.json", menuTwoDoc)] "menu.json" "9"
        = ⟨respErr 404 "Item not found", [("menu.json", menuTwoDoc)],
           [.read "menu.json"]⟩) ∧
    (∀ item ∈ [menuItemOne, menuItemThree],
      idEq item (parseIntJS "3") = true →
      ∃ i it, [menuItemOne, menuItemThree].get? i = some it ∧
        idEq it (parseIntJS "3") = true ∧
        deleteDataItem [("menu.json", menuTwoDoc)] "menu.json" "3"
          = ⟨respOk (some it),
             writeFile [("menu.json", menuTwoDoc)] "menu.json"
               (menuTwoDoc.setKey "items"
                 (.arr ([menuItemOne, menuItemThree].eraseIdx i))),
             [.read "menu.json", .write "menu.json"]⟩) :=
  ⟨⟨rfl, rfl, rfl, by decide⟩,
   (c5_delete_semantics [("menu.json", menuTwoDoc)] "menu.json" "items" "9"
      menuTwoDoc rfl rfl [menuItemOne, menuItemThree] rfl (by decide)).1,
   (c5_delete_semantics [("menu.json", menuTwoDoc)] "menu.json" "items" "3"
      menuTwoDoc rfl rfl [menuItemOne, menuItemThree] rfl (by decide)).2⟩

/-- **C9.** A PUT or DELETE on an existing, well-shaped item document whose
`:id` path parameter parses (via `parseInt`) to `NaN` or to a number
matching no item's id returns 404 "Item not found" and leaves the store
unchanged — it never matches an item, returns 400, or escapes the
handler. -/
theorem c9_unmatched_id_404 (st : Store) (f key idStr : String) (d : Json)
    (body : Option Json)
    (hkey : itemsKeyOf f = some key)
    (hread : readFile st f = some d)
    (items : List Json) (hitems : d.get key = some (.arr items))
    (hnn : ∀ j ∈ items, j.isNull = false)
    (hno : ∀ j ∈ items, idEq j (parseIntJS idStr) = false) :
    putDataItem st f idStr body
      = ⟨respErr 404 "Item not found", st, [.read f]⟩ ∧
    deleteDataItem st f idStr
      = ⟨respErr 404 "Item not found", st, [.read f]⟩ := by
  have hfok := itemsKeyOf_filenameOk hkey
  have hfind := findIndexById_eq_ok_none hnn hno
  constructor <;>
    simp [putDataItem, deleteDataItem, hfok, hread, hkey, hitems, hfind]

/-- Witness for C9 at the non-numeric id `"abc"` (`parseInt` gives NaN). -/
theorem c9_unmatched_id_404_witness :
    (itemsKeyOf "menu.json" = some "items" ∧
     readFile [("menu.json", menuTwoDoc)] "menu.json" = some menuTwoDoc ∧
     menuTwoDoc.get "items" = some (.arr [menuItemOne, menuItemThree]) ∧
     (∀ j ∈ [menuItemOne, menuItemThree], j.isNull = false) ∧
     (∀ j ∈ [menuItemOne, menuItemThree], idEq j (parseIntJS "abc") = false)) ∧
    putDataItem [("menu.json", menuTwoDoc)] "menu.json" "abc" none
      = ⟨respErr 404 "Item not found", [("menu.json", menuTwoDoc)],
         [.read "menu.json"]⟩ ∧
    deleteDataItem [("menu.json", menuTwoDoc)] "menu.json" "abc"
      = ⟨respErr 404 "Item not found", [("menu.json", menuTwoDoc)],
         [.read "menu.json"]⟩ :=
  ⟨⟨rfl, rfl, rfl, by decide, by decide⟩,
   (c9_unmatched_id_404 [("menu.json", menuTwoDoc)] "menu.json" "items" "abc"
      menuTwoDoc none rfl rfl [menuItemOne, menuItemThree] rfl
      (by decide) (by decide)).1,
   (c9_unmatched_id_404 [("menu.json", menuTwoDoc)] "menu.json" "items" "abc"
      menuTwoDoc none rfl rfl [menuItemOne, menuItemThree] rfl
      (by decide) (by decide)).2⟩

/-- **C3, counterexample.** The claim says every data endpoint answers 404
when the named file is missing.  In the code only GET special-cases ENOENT:
PUT and DELETE on a missing file reach the generic catch and answer 500,
and POST on a missing file simply creates it (200). -/
theorem c3_counterexample :
    readFile ([] : Store) "menu.json" = none ∧
    (putDataItem [] "menu.json" "1" none).resp.status = 500 ∧
    (deleteDataItem [] "menu.json" "1").resp.status = 500 ∧
    (postDataFile [] "menu.json" (some seedMenuDoc)).resp.status = 200 := by
  refine ⟨rfl, rfl, rfl, rfl⟩

/-- **C3 (amended).** Status taxonomy as implemented: GET on a missing file
is 404; PUT/DELETE on an existing well-shaped item document with an
unmatched id are 404; but PUT/DELETE on a missing file are 500 (the ENOENT
from the read is swallowed by the generic catch), and POST never 404s on a
missing file — it validates and creates it with status 200. -/
theorem c3_status_taxonomy (st : Store) (f key idStr : String)
    (body : Option Json) (d db : Json) (items : List Json) :
    (filenameOk f = true → readFile st f = none →
      getDataFile st f = ⟨respErr 404 "File not found", st, [.read f]⟩ ∧
      putDataItem st f idStr body
        = ⟨respErr 500 "Failed to update item", st, [.read f]⟩ ∧
      deleteDataItem st f idStr
        = ⟨respErr 500 "Failed to delete item", st, [.read f]⟩) ∧
    (itemsKeyOf f = some key → readFile st f = some d →
      d.get key = some (.arr items) →
      (∀ j ∈ items, j.isNull = false) →
      (∀ j ∈ items, idEq j (parseIntJS idStr) = false) →
      putDataItem st f idStr body
        = ⟨respErr 404 "Item not found", st, [.read f]⟩ ∧
      deleteDataItem st f idStr
        = ⟨respErr 404 "Item not found", st, [.read f]⟩) ∧
    (filenameOk f = true → Json.truthy db = true →
      validateData f db = none →
      postDataFile st f (some db)
        = ⟨respOk none, writeFile st f db, [.write f]⟩) := by
  refine ⟨fun hf hnone => ?_, fun hkey hread hitems hnn hno => ?_,
    fun hf ht hv => ?_⟩
  · exact ⟨by simp [getDataFile, hf, hnone],
      by simp [putDataItem, hf, hnone],
      by simp [deleteDataItem, hf, hnone]⟩
  · have hfok := itemsKeyOf_filenameOk hkey
    have hfind := findIndexById_eq_ok_none hnn hno
    exact ⟨by simp [putDataItem, hfok, hread, hkey, hitems, hfind],
      by simp [deleteDataItem, hfok, hread, hkey, hitems, hfind]⟩
  · simp [postDataFile, hf, Json.truthyO, ht, hv]

/-- Witness for the amended C3, exercising all three parts. -/
theorem c3_status_taxonomy_witness :
    (filenameOk "menu.json" = true ∧ readFile ([] : Store) "menu.json" = none ∧
     getDataFile [] "menu.json"
       = ⟨respErr 404 "File not found", [], [.read "menu.json"]⟩ ∧
     putDataItem [] "menu.json" "1" none
       = ⟨respErr 500 "Failed to update item", [], [.read "menu.json"]⟩ ∧
     deleteDataItem [] "menu.json" "1"
       = ⟨respErr 500 "Failed to delete item", [], [.read "menu.json"]⟩) ∧
    (putDataItem [("menu.json", menuTwoDoc)] "menu.json" "9" none
       = ⟨respErr 404 "Item not found", [("menu.json", menuTwoDoc)],
          [.read "menu.json"]⟩ ∧
     deleteDataItem [("menu.json", menuTwoDoc)] "menu.json" "9"
       = ⟨respErr 404 "Item not found", [("menu.json", menuTwoDoc)],
          [.read "menu.json"]⟩) ∧
    postDataFile [] "menu.json" (some seedMenuDoc)
      = ⟨respOk none, writeFile [] "menu.json" seedMenuDoc,
         [.write "menu.json"]⟩ :=
  ⟨⟨by decide, rfl,
    (c3_status_taxonomy [] "menu.json" "items" "1" none .null .null []).1
      (by decide) rfl⟩,
   (c3_status_taxonomy [("menu.json", menuTwoDoc)] "menu.json" "items" "9"
      none menuTwoDoc .null [menuItemOne, menuItemThree]).2.1
     rfl rfl rfl (by decide) (by decide),
   (c3_status_taxonomy [] "menu.json" "items" "1" none .null seedMenuDoc []).2.2
     (by decide) (by decide) rfl⟩

/-- **C10, counterexample.** The claim says any PUT/DELETE on a
pattern-valid filename outside the three item documents answers 400.  But
the handlers read the file before the file-type branch, so when such a file
(here `foo.json`) is absent the result is the generic 500, not 400. -/
theorem c10_counterexample :
    filenameOk "foo.json" = true ∧ itemsKeyOf "foo.json" = none ∧
    readFile ([] : Store) "foo.json" = none ∧
    (putDataItem [] "foo.json" "1" none).resp.status = 500 ∧
    (deleteDataItem [] "foo.json" "1").resp.status = 500 := by
  refine ⟨by decide, rfl, rfl, rfl, rfl⟩

/-- **C10 (amended).** For a pattern-valid filename outside the three item
documents (in particular `contact.json`), provided the file exists on disk,
PUT answers 400 "Cannot update this file type", DELETE answers 400 "Cannot
delete from this file type", and the store is not modified; if such a file
is absent, the read fails first and the generic catch answers 500. -/
theorem c10_nonitem_file_type (st : Store) (f idStr : String)
    (body : Option Json) (d : Json)
    (hkey : itemsKeyOf f = none) (hf : filenameOk f = true)
    (hread : readFile st f = some d) :
    putDataItem st f idStr body
      = ⟨respErr 400 "Cannot update this file type", st, [.read f]⟩ ∧
    deleteDataItem st f idStr
      = ⟨respErr 400 "Cannot delete from this file type", st, [.read f]⟩ := by
  constructor <;> simp [putDataItem, deleteDataItem, hf, hread, hkey]

/-- Witness for the amended C10 at `contact.json`. -/
theorem c10_nonitem_file_type_witness :
    (itemsKeyOf "contact.json" = none ∧ filenameOk "contact.json" = true ∧
     readFile [("contact.json", seedContactDoc)] "contact.json"
       = some seedContactDoc) ∧
    putDataItem [("contact.json", seedContactDoc)] "contact.json" "1"
        (some (.obj [("price", .num 2)]))
      = ⟨respErr 400 "Cannot update this file type",
         [("contact.json", seedContactDoc)], [.read "contact.json"]⟩ ∧
    deleteDataItem [("contact.json", seedContactDoc)] "contact.json" "1"
      = ⟨respErr 400 "Cannot delete from this file type",
         [("contact.json", seedContactDoc)], [.read "contact.json"]⟩ :=
  ⟨⟨rfl, by decide, rfl⟩,
   (c10_nonitem_file_type [("contact.json", seedContactDoc)] "contact.json"
      "1" (some (.obj [("price", .num 2)])) seedContactDoc rfl (by decide) rfl).1,
   (c10_nonitem_file_type [("contact.json", seedContactDoc)] "contact.json"
      "1" (some (.obj [("price", .num 2)])) seedContactDoc rfl (by decide) rfl).2⟩

/-- **C4.** On a stored menu document containing an item with id 3, PUT
`/api/data/menu.json/3` with body `{price: 9.99}` succeeds and the stored
document differs from the original only in that item's `price` field: the
item keeps every other field, all other items and the `categories` array
are untouched, array order and length are preserved, and no other file
changes. -/
theorem c4_put_price_patch (st : Store) (d : Json) (items : List Json)
    (hread : readFile st "menu.json" = some d)
    (hitems : d.get "items" = some (.arr items))
    (hnn : ∀ j ∈ items, j.isNull = false)
    (item : Json) (hmem : item ∈ items) (hid : idEq item (some 3) = true) :
    ∃ i it fields merged,
      items.get? i = some it ∧ idEq it (some 3) = true ∧ it = .obj fields ∧
      merged = Json.obj (Json.mergeFields fields [("price", .num (9.99 : ℚ))]) ∧
      putDataItem st "menu.json" "3" (some (.obj [("price", .num (9.99 : ℚ))]))
        = ⟨respOk (some merged),
           writeFile st "menu.json" (d.setKey "items" (.arr (items.set i merged))),
           [.read "menu.json", .write "menu.json"]⟩ ∧
      merged.get "price" = some (.num (9.99 : ℚ)) ∧
      (∀ k, k ≠ "price" → merged.get k = it.get k) ∧
      (∀ j, j ≠ i → (items.set i merged).get? j = items.get? j) ∧
      (items.set i merged).length = items.length ∧
      (d.setKey "items" (.arr (items.set i merged))).get "categories"
        = d.get "categories" ∧
      (∀ g, g ≠ "menu.json" →
        readFile (writeFile st "menu.json"
          (d.setKey "items" (.arr (items.set i merged)))) g = readFile st g) := by
  have hp : parseIntJS "3" = some 3 := by decide
  have hfok : filenameOk "menu.json" = true := by decide
  obtain ⟨i, it, hfind, hget, hidq⟩ := findIndexById_found hnn hmem hid
  obtain ⟨fields, hfld⟩ := idEq_isObj hidq
  subst hfld
  have hget' : items[i]? = some (Json.obj fields) := by simpa using hget
  refine ⟨i, .obj fields, fields, _, hget, hidq, rfl, rfl, ?_, ?_, ?_, ?_, ?_,
    ?_, ?_⟩
  · simp [putDataItem, hfok, hread, hp, hitems, hfind, hget', itemsKeyOf,
      Json.spreadFields]
  · exact Json.lookupKey_mergeFields_same fields "price" _
  · intro k hk
    simpa [Json.get] using Json.lookupKey_mergeFields_other fields "price" _ hk
  · intro j hj
    simp only [List.get?_eq_getElem?]
    exact List.getElem?_set_ne (Ne.symm hj)
  · simp
  · exact Json.get_setKey_ne d (by decide) _
  · intro g hg
    exact readFile_writeFile_ne hg st _

/-- Witness for C4 on the two-item menu document. -/
theorem c4_put_price_patch_witness :
    (readFile [("menu.json", menuTwoDoc)] "menu.json" = some menuTwoDoc ∧
     menuTwoDoc.get "items" = some (.arr [menuItemOne, menuItemThree]) ∧
     (∀ j ∈ [menuItemOne, menuItemThree], j.isNull = false) ∧
     menuItemThree ∈ [menuItemOne, menuItemThree] ∧
     idEq menuItemThree (some 3) = true) ∧
    (∃ i it fields merged,
      [menuItemOne, menuItemThree].get? i = some it ∧
      idEq it (some 3) = true ∧ it = .obj fields ∧
      merged = Json.obj (Json.mergeFields fields [("price", .num (9.99 : ℚ))]) ∧
      putDataItem [("menu.json", menuTwoDoc)] "menu.json" "3"
          (some (.obj [("price", .num (9.99 : ℚ))]))
        = ⟨respOk (some merged),
           writeFile [("menu.json", menuTwoDoc)] "menu.json"
             (menuTwoDoc.setKey "items"
               (.arr ([menuItemOne, menuItemThree].set i merged))),
           [.read "menu.json", .write "menu.json"]⟩ ∧
      merged.get "price" = some (.num (9.99 : ℚ)) ∧
      (∀ k, k ≠ "price" → merged.get k = it.get k) ∧
      (∀ j, j ≠ i →
        ([menuItemOne, menuItemThree].set i merged).get? j
          = [menuItemOne, menuItemThree].get? j) ∧
      ([menuItemOne, menuItemThree].set i merged).length
        = [menuItemOne, menuItemThree].length ∧
      (menuTwoDoc.setKey "items"
          (.arr ([menuItemOne, menuItemThree].set i merged))).get "categories"
        = menuTwoDoc.get "categories" ∧
      (∀ g, g ≠ "menu.json" →
        readFile (writeFile [("menu.json", menuTwoDoc)] "menu.json"
          (menuTwoDoc.setKey "items"
            (.arr ([menuItemOne, menuItemThree].set i merged)))) g
          = readFile [("menu.json", menuTwoDoc)] g)) :=
  ⟨⟨rfl, rfl, by decide, by simp, by decide⟩,
   c4_put_price_patch [("menu.json", menuTwoDoc)] menuTwoDoc
     [menuItemOne, menuItemThree] rfl rfl (by decide) menuItemThree
     (by simp) (by decide)⟩

/-- A menu document that passes `validateData` while violating the spec's
claimed invariants: both items carry id 1 (not unique) and the first price
is −5 (not positive).  Truthiness checks cannot see either. -/
def c2BadMenuDoc : Json := .obj [("categories", .arr [.str "Coffee"]),
  ("items", .arr [
    .obj [("id", .num 1), ("name", .str "Latte"), ("category", .str "Coffee"),
      ("price", .num (-5)), ("description", .str "x"), ("image", .str "a.jpg")],
    .obj [("id", .num 1), ("name", .str "Mocha"), ("category", .str "Coffee"),
      ("price", .num 2), ("description", .str "y"), ("image", .str "b.jpg")]])]

/-- **C2, counterexample.** POST validation admits a menu document with
duplicate ids and a negative price (and persists it), and a PUT patch on a
valid document drives a price negative with no validation at all — so the
claimed invariants (unique integer ids, positive prices) are not preserved
by the API. -/
theorem c2_counterexample :
    validateData "menu.json" c2BadMenuDoc = none ∧
    (postDataFile [("menu.json", seedMenuDoc)] "menu.json"
        (some c2BadMenuDoc)).resp.success = true ∧
    readFile (postDataFile [("menu.json", seedMenuDoc)] "menu.json"
        (some c2BadMenuDoc)).store "menu.json" = some c2BadMenuDoc ∧
    specMenuIdsOk c2BadMenuDoc = false ∧
    specMenuPricesPositive c2BadMenuDoc = false ∧
    (putDataItem [("menu.json", seedMenuDoc)] "menu.json" "1"
        (some (.obj [("price", .num (-3))]))).resp.success = true ∧
    specMenuPricesPositive
        ((readFile (putDataItem [("menu.json", seedMenuDoc)] "menu.json" "1"
            (some (.obj [("price", .num (-3))]))).store "menu.json").getD .null)
      = false :=
  ⟨rfl, rfl, rfl, by decide, by decide, rfl, by decide⟩

/-- **C2 (amended).** What the write path actually guarantees: for each of
the three item documents, a POST succeeds exactly when the document has its
item array (plus `categories` for the menu) and every item has all of its
required fields truthy — presence/non-emptiness only.  Id uniqueness, id
integrality and price positivity are not checked, and PUT applies its patch
with no validation. -/
theorem c2_validation_characterization (st : Store) (d : Json) :
    ((postDataFile st "menu.json" (some d)).resp.success = true ↔
      specMenuShape d) ∧
    ((postDataFile st "specials.json" (some d)).resp.success = true ↔
      specSpecialsShape d) ∧
    ((postDataFile st "events.json" (some d)).resp.success = true ↔
      specEventsShape d) := by
  refine ⟨?_, ?_, ?_⟩
  · rw [postDataFile_success_iff st "menu.json" (by decide) d]
    constructor
    · rintro ⟨-, hv⟩
      exact (validateData_menu_none_iff_shape d).mp hv
    · intro hs
      obtain ⟨cats, hc⟩ := hs.1
      exact ⟨get_some_truthy hc, (validateData_menu_none_iff_shape d).mpr hs⟩
  · rw [postDataFile_success_iff st "specials.json" (by decide) d]
    constructor
    · rintro ⟨-, hv⟩
      exact (validateData_specials_none_iff_shape d).mp hv
    · intro hs
      obtain ⟨sp, hsp, -⟩ := id hs
      exact ⟨get_some_truthy hsp, (validateData_specials_none_iff_shape d).mpr hs⟩
  · rw [postDataFile_success_iff st "events.json" (by decide) d]
    constructor
    · rintro ⟨-, hv⟩
      exact (validateData_events_none_iff_shape d).mp hv
    · intro hs
      obtain ⟨ev, hev, -⟩ := id hs
      exact ⟨get_some_truthy hev, (validateData_events_none_iff_shape d).mpr hs⟩

end Cafe
